import Mathlib

/-!
# Verification of the `gt cleanup` reconciliation engine

Shallow embedding of `internal/cmd/cleanup.go` from the gastown repository.
External collaborators (work-unit registry, session registry, grouped-work
store, branch collector, workspace/config/rig discovery) are modelled as
oracles bundled in `Env` / `World`; the engine's calls to them are recorded
in an explicit event trace so that frame properties ("dry run never calls
`Remove`") can be stated and proved.
-/

namespace Gastown

/-- Errors returned by external collaborators (Go `error` values). -/
abbrev Err := String

/-- A rig: one managed project checkout (`rig.Rig`, fields used here). -/
structure Rig where
  name : String
  path : String
  deriving DecidableEq, Repr

/-- Lifecycle state of a polecat. The engine only distinguishes
`polecat.StateDone` from everything else; other states are opaque tags. -/
inductive PolecatState where
  | done
  | other (tag : String)
  deriving DecidableEq, Repr

/-- A work unit (`polecat.Polecat`, fields used here). -/
structure Polecat where
  name : String
  state : PolecatState
  deriving DecidableEq, Repr

/-- An open convoy as returned by `bd list --type=convoy --status=open --json`. -/
structure Convoy where
  id : String
  title : String
  deriving DecidableEq, Repr

/-- One tracked issue of a convoy; only its status matters to the engine. -/
structure TrackedIssue where
  status : String
  deriving DecidableEq, Repr

/-- The rigs configuration loaded from `mayor/rigs.json`
(`config.RigsConfig`; contents are opaque to the cleanup engine, only
the fallback to an empty config matters). -/
structure RigsConfig where
  rigNames : List String
  deriving DecidableEq, Repr

/-- The fallback `&config.RigsConfig{Rigs: make(map[string]config.RigEntry)}`. -/
def emptyRigsConfig : RigsConfig := ⟨[]⟩

/-- One call made by the engine to an external collaborator.
`isRunningQuery` is the only read-only call recorded; all others mutate
external state. -/
inductive Event where
  | isRunningQuery (rigName unitName : String)
  | stop (rigName unitName : String) (force : Bool)
  | remove (rigName unitName : String) (force : Bool)
  | bdCloseBead (rigName unitName : String)
  | closeConvoy (id : String)
  | collectStale (rigName : String)
  deriving DecidableEq, Repr

/-- Whether an event mutates external state. -/
def Event.isMutating : Event → Bool
  | .isRunningQuery _ _ => false
  | _ => true

/-- The rig/unit identity an event targets, when it targets a work unit. -/
def Event.rigUnit : Event → Option (String × String)
  | .isRunningQuery r u => some (r, u)
  | .stop r u _ => some (r, u)
  | .remove r u _ => some (r, u)
  | .bdCloseBead r u => some (r, u)
  | .closeConvoy _ => none
  | .collectStale _ => none

/-- External collaborators consumed by the engine. Each field gives the
result the collaborator would return for a given call; a `World`/`Env` is
one fixed external state. -/
structure Env where
  /-- `polecat.NewManager(r, g).List()` -/
  listPolecats : Rig → Except Err (List Polecat)
  /-- `polecat.NewSessionManager(t, r).IsRunning(name)` -/
  isRunning : Rig → String → Except Err Bool
  /-- `sessMgr.Stop(name, force)` -/
  stopSession : Rig → String → Bool → Except Err Unit
  /-- `mgr.Remove(name, force)` -/
  removePolecat : Rig → String → Bool → Except Err Unit
  /-- `bd close <agent-bead-id> -r "Nuked by gt cleanup"` run in the rig -/
  bdCloseBead : Rig → String → Except Err Unit
  /-- `bd list --type=convoy --status=open --json` plus JSON decoding -/
  listOpenConvoys : Except Err (List Convoy)
  /-- `getTrackedIssues(townBeads, convoyID)` -/
  trackedIssues : String → List TrackedIssue
  /-- the grouped-work store closing one convoy record -/
  closeConvoy : String → Except Err Unit
  /-- `polecat.NewManager(r, g).CleanupStaleBranches()` -/
  collectStaleBranches : Rig → Except Err Nat

/-- Modelled from the spec: the source of `polecat.SessionManager.IsRunning`
is not under `src/`; the spec gives `isRunning(rig, name) → boolean`. The
call site `running, _ := sessMgr.IsRunning(p.Name)` discards the error, and
per Go's zero-value convention a failed query returns `false` together with
its error, so on failure the unit is treated as not running. -/
def isRunningCall (env : Env) (r : Rig) (unitName : String) : Bool :=
  match env.isRunning r unitName with
  | .ok b => b
  | .error _ => false

/-- A per-unit removal failure as reported by the reaper
(the `fmt.Printf(" failed (%v)", err)` line identifies rig, unit, error). -/
structure UnitFailure where
  rigName : String
  unitName : String
  err : Err
  deriving DecidableEq, Repr

/-- Result of the Work-Unit Reaper pass (`cleanupDonePolecats`):
the returned `(totalNuked, err)` pair plus the observable per-rig listing
warnings, per-unit failure reports, and the collaborator-call trace. -/
structure ReapOutcome where
  nuked : Nat
  listWarnings : List (String × Err)
  removeFailures : List UnitFailure
  trace : List Event
  err : Option Err
  deriving DecidableEq, Repr

/-- Apply-mode body of the inner loop of `cleanupDonePolecats` for one done
polecat: query the session, force-stop it when running, force-remove the
polecat, and on success best-effort close the agent bead. Returns the
increment to `totalNuked`, the failure reports, and the calls made. -/
def reapOne (env : Env) (r : Rig) (p : Polecat) :
    Nat × List UnitFailure × List Event :=
  let running := isRunningCall env r p.name
  let stopEvs := if running then [Event.stop r.name p.name true] else []
  let evs := Event.isRunningQuery r.name p.name :: stopEvs ++
    [Event.remove r.name p.name true]
  match env.removePolecat r p.name true with
  | .error e => (0, [⟨r.name, p.name, e⟩], evs)
  | .ok _ => (1, [], evs ++ [Event.bdCloseBead r.name p.name])

/-- The inner loop of `cleanupDonePolecats` over one rig's done polecats in
apply mode. -/
def reapUnits (env : Env) (r : Rig) : List Polecat → Nat × List UnitFailure × List Event
  | [] => (0, [], [])
  | p :: rest =>
    let one := reapOne env r p
    let rec' := reapUnits env r rest
    (one.1 + rec'.1, one.2.1 ++ rec'.2.1, one.2.2 ++ rec'.2.2)

/-- The body of `cleanupDonePolecats` for one rig: list the polecats
(a listing error warns and skips the rig), keep those in state done, and
either count them (dry run) or reap them (apply). -/
def reapRig (env : Env) (dryRun : Bool) (r : Rig) :
    Nat × List (String × Err) × List UnitFailure × List Event :=
  match env.listPolecats r with
  | .error e => (0, [(r.name, e)], [], [])
  | .ok ps =>
    let donePolecats := ps.filter (fun p => p.state == PolecatState.done)
    if dryRun then
      (donePolecats.length, [], [], [])
    else
      let res := reapUnits env r donePolecats
      (res.1, [], res.2.1, res.2.2)

/-- The outer loop of `cleanupDonePolecats` over all rigs. -/
def reapRigs (env : Env) (dryRun : Bool) :
    List Rig → Nat × List (String × Err) × List UnitFailure × List Event
  | [] => (0, [], [], [])
  | r :: rest =>
    let h := reapRig env dryRun r
    let t := reapRigs env dryRun rest
    (h.1 + t.1, h.2.1 ++ t.2.1, h.2.2.1 ++ t.2.2.1, h.2.2.2 ++ t.2.2.2)

/-- `cleanupDonePolecats(rigs, dryRun)`: the Work-Unit Reaper pass.
The Go function always ends with `return totalNuked, nil`. -/
def cleanupDonePolecats (env : Env) (rigs : List Rig) (dryRun : Bool) : ReapOutcome :=
  let folded := reapRigs env dryRun rigs
  { nuked := folded.1, listWarnings := folded.2.1,
    removeFailures := folded.2.2.1, trace := folded.2.2.2, err := none }

/-- The `allClosed` loop in `previewCompletedConvoys`: false as soon as one
tracked issue has a status other than closed or tombstone. -/
def allClosedLoop : List TrackedIssue → Bool
  | [] => true
  | t :: rest =>
    if t.status != "closed" && t.status != "tombstone" then false
    else allClosedLoop rest

/-- The per-convoy completeness test of `previewCompletedConvoys`:
skip records tracking zero issues, otherwise require every tracked issue
closed or tombstone. -/
def convoyComplete (env : Env) (cv : Convoy) : Bool :=
  let tracked := env.trackedIssues cv.id
  if tracked.length == 0 then false else allClosedLoop tracked

/-- `previewCompletedConvoys(townBeads)`: list open convoys and return the
id/title of each complete one, closing nothing. -/
def previewCompletedConvoys (env : Env) : Except Err (List (String × String)) :=
  match env.listOpenConvoys with
  | .error e => .error ("listing convoys: " ++ e)
  | .ok convoys =>
    .ok ((convoys.filter (fun cv => convoyComplete env cv)).map
      (fun cv => (cv.id, cv.title)))

/-- Modelled from the spec: `checkAndCloseCompletedConvoys` lives in
`convoy.go`, which is not under `src/`. Per the spec (§4.2): list all open
convoy records, classify each complete by the same invariant as the preview,
close complete records via the store (a failure to close one record does not
prevent closing the remaining records); a store-listing failure aborts the
pass. Returns the closed records and the close calls made. -/
def checkAndCloseCompletedConvoys (env : Env) :
    Except Err (List (String × String)) × List Event :=
  match env.listOpenConvoys with
  | .error e => (.error ("listing convoys: " ++ e), [])
  | .ok convoys =>
    let complete := convoys.filter (fun cv => convoyComplete env cv)
    let closed := complete.filter (fun cv => (env.closeConvoy cv.id).toBool)
    (.ok (closed.map (fun cv => (cv.id, cv.title))),
     complete.map (fun cv => Event.closeConvoy cv.id))

/-- `cleanupCompletedConvoys(townBeads, dryRun)`: the Grouped-Work Closer
pass; returns `(closedCount, err)` plus the calls made. -/
def cleanupCompletedConvoys (env : Env) (dryRun : Bool) :
    Nat × Option Err × List Event :=
  if dryRun then
    match previewCompletedConvoys env with
    | .error e => (0, some e, [])
    | .ok closed => (closed.length, none, [])
  else
    match checkAndCloseCompletedConvoys env with
    | (.error e, evs) => (0, some e, evs)
    | (.ok closed, evs) => (closed.length, none, evs)

/-- The body of `cleanupStaleBranches` for one rig: in dry run only announce
intent; in apply mode call the branch collector, warning and skipping the
rig on failure, and counting deletions only when positive. -/
def gcRig (env : Env) (dryRun : Bool) (r : Rig) : Nat × List Event :=
  if dryRun then (0, [])
  else
    match env.collectStaleBranches r with
    | .error _ => (0, [Event.collectStale r.name])
    | .ok deleted =>
      (if deleted > 0 then deleted else 0, [Event.collectStale r.name])

/-- The loop of `cleanupStaleBranches` over all rigs. -/
def gcRigs (env : Env) (dryRun : Bool) : List Rig → Nat × List Event
  | [] => (0, [])
  | r :: rest =>
    let h := gcRig env dryRun r
    let t := gcRigs env dryRun rest
    (h.1 + t.1, h.2 ++ t.2)

/-- `cleanupStaleBranches(rigs, dryRun)`: the Branch Collector pass.
The Go function always ends with `return totalDeleted, nil`. -/
def cleanupStaleBranches (env : Env) (rigs : List Rig) (dryRun : Bool) :
    Nat × Option Err × List Event :=
  let folded := gcRigs env dryRun rigs
  (folded.1, none, folded.2)

/-- The whole external state a run sees: workspace resolution, rigs-config
loading, rig discovery, and the per-pass collaborators. -/
structure World where
  /-- `workspace.FindFromCwdOrError()` -/
  findWorkspace : Except Err String
  /-- `config.LoadRigsConfig(filepath.Join(townRoot, "mayor", "rigs.json"))` -/
  loadRigsConfig : String → Except Err RigsConfig
  /-- `rig.NewManager(townRoot, rigsConfig, g).DiscoverRigs()` -/
  discoverRigs : RigsConfig → Except Err (List Rig)
  env : Env

/-- A warning printed by the driver when a pass reports an error. -/
inductive DriverWarning where
  | polecatPass (e : Err)
  | convoyPass (e : Err)
  | branchPass (e : Err)
  deriving DecidableEq, Repr

/-- The observable result of a successful `runCleanup`: the three summary
totals, the driver warnings, the per-unit failure reports, and the
collaborator-call trace. -/
structure RunOutcome where
  totalPolecatsNuked : Nat
  totalConvoysClosed : Nat
  totalBranchesGCed : Nat
  warnings : List DriverWarning
  unitFailures : List UnitFailure
  trace : List Event
  deriving DecidableEq, Repr

/-- The flag set of `gt cleanup`. -/
structure Flags where
  dryRun : Bool
  gc : Bool
  onlyPolecats : Bool
  onlyConvoys : Bool
  deriving DecidableEq, Repr

/-- `cleanBoth := !cleanupOnlyPolecats && !cleanupOnlyConvoys` -/
def cleanBoth (f : Flags) : Bool := !f.onlyPolecats && !f.onlyConvoys

/-- The pass-running section of `runCleanup` once rigs are discovered:
run each enabled pass, turning a pass error into a driver warning, and
assemble the summary. -/
def runPasses (env : Env) (f : Flags) (rigs : List Rig) : RunOutcome :=
  let p :=
    if cleanBoth f || f.onlyPolecats then
      let out := cleanupDonePolecats env rigs f.dryRun
      (out.nuked,
       (match out.err with
        | some e => [DriverWarning.polecatPass e]
        | none => []),
       out.removeFailures, out.trace)
    else (0, [], [], [])
  let c :=
    if cleanBoth f || f.onlyConvoys then
      let out := cleanupCompletedConvoys env f.dryRun
      (out.1,
       (match out.2.1 with
        | some e => [DriverWarning.convoyPass e]
        | none => []),
       out.2.2)
    else (0, [], [])
  let g :=
    if f.gc && (cleanBoth f || f.onlyPolecats) then
      let out := cleanupStaleBranches env rigs f.dryRun
      (out.1,
       (match out.2.1 with
        | some e => [DriverWarning.branchPass e]
        | none => []),
       out.2.2)
    else (0, [], [])
  { totalPolecatsNuked := p.1
    totalConvoysClosed := c.1
    totalBranchesGCed := g.1
    warnings := p.2.1 ++ c.2.1 ++ g.2.1
    unitFailures := p.2.2.1
    trace := p.2.2.2 ++ c.2.2 ++ g.2.2 }

/-- `runCleanup`: resolve the workspace (failure aborts), load the rigs
config (failure falls back to an empty config), discover rigs (failure
aborts), then run the enabled passes, turning each pass error into a
warning, and return nil. -/
def runCleanup (w : World) (f : Flags) : Except Err RunOutcome :=
  match w.findWorkspace with
  | .error e => .error ("not in a Gas Town workspace: " ++ e)
  | .ok townRoot =>
    let rigsConfig :=
      match w.loadRigsConfig townRoot with
      | .error _ => emptyRigsConfig
      | .ok c => c
    match w.discoverRigs rigsConfig with
    | .error e => .error ("discovering rigs: " ++ e)
    | .ok rigs => .ok (runPasses w.env f rigs)

/-- The rigs config a run effectively uses: the loaded one, or the empty
fallback when loading (or the workspace resolution before it) fails. -/
def effectiveRigsConfig (w : World) : RigsConfig :=
  match w.findWorkspace with
  | .error _ => emptyRigsConfig
  | .ok townRoot =>
    match w.loadRigsConfig townRoot with
    | .error _ => emptyRigsConfig
    | .ok c => c

/-- The trace of a run (empty when the run aborted). -/
def runTrace : Except Err RunOutcome → List Event
  | .ok out => out.trace
  | .error _ => []

/-- The driver warnings of a run (empty when the run aborted). -/
def runWarnings : Except Err RunOutcome → List DriverWarning
  | .ok out => out.warnings
  | .error _ => []

/-- The per-unit removal-failure reports of a run: the code's `unitsFailed`
notion (one failure report per done unit whose removal failed). -/
def runUnitsFailed : Except Err RunOutcome → Nat
  | .ok out => out.unitFailures.length
  | .error _ => 0

/-- The done units a reaper pass selects: for every rig whose listing
succeeds, its polecats in state done, in order. -/
def doneUnits (env : Env) : List Rig → List (Rig × Polecat)
  | [] => []
  | r :: rest =>
    (match env.listPolecats r with
     | .error _ => []
     | .ok ps => (ps.filter (fun p => p.state == PolecatState.done)).map
        (fun p => (r, p))) ++ doneUnits env rest

/-- Whether a run aborted with a non-nil error. -/
def isFailure {α : Type} : Except Err α → Bool
  | .error _ => true
  | .ok _ => false

/-- Whether an event is a removal attempt. -/
def Event.isRemove : Event → Bool
  | .remove _ _ _ => true
  | _ => false

/-- Whether an event is a session stop. -/
def Event.isStop : Event → Bool
  | .stop _ _ _ => true
  | _ => false

/-- Whether an event is a branch-collection call. -/
def Event.isCollect : Event → Bool
  | .collectStale _ => true
  | _ => false

/-- The removal attempts in a trace. -/
def removeEvents (tr : List Event) : List Event := tr.filter Event.isRemove

/-- The branch-collection calls in a trace. -/
def collectEvents (tr : List Event) : List Event := tr.filter Event.isCollect

/-- True when a trace invokes no mutating collaborator operation. -/
def noMutatingEvents (tr : List Event) : Bool := tr.all (fun e => !e.isMutating)

/-- True when a trace contains no session-stop call. -/
def noStopEvents (tr : List Event) : Bool := tr.all (fun e => !e.isStop)

/-- Whether any event of a trace targets the given rig/unit pair. -/
def touchesUnit (tr : List Event) (rigName unitName : String) : Bool :=
  tr.any (fun e => e.rigUnit == some (rigName, unitName))

/-- The (rig name, unit name) pairs of the done units a reaper pass selects. -/
def doneUnitNames (env : Env) (rigs : List Rig) : List (String × String) :=
  (doneUnits env rigs).map (fun rp => (rp.1.name, rp.2.name))

/-- Whether a driver warning is the work-unit-reaper warning
("polecat cleanup had errors"). -/
def DriverWarning.isPolecatPass : DriverWarning → Bool
  | .polecatPass _ => true
  | _ => false

/-! ## Concrete external states used as test inputs -/

/-- An external state where every collaborator succeeds and every
enumeration is empty. -/
def envOkEmpty : Env where
  listPolecats := fun _ => .ok []
  isRunning := fun _ _ => .ok false
  stopSession := fun _ _ _ => .ok ()
  removePolecat := fun _ _ _ => .ok ()
  bdCloseBead := fun _ _ => .ok ()
  listOpenConvoys := .ok []
  trackedIssues := fun _ => []
  closeConvoy := fun _ => .ok ()
  collectStaleBranches := fun _ => .ok 0

/-- All flags off: plain `gt cleanup`. -/
def flagsOff : Flags := ⟨false, false, false, false⟩

/-- `gt cleanup --dry-run --gc`. -/
def flagsDryGc : Flags := ⟨true, true, false, false⟩

/-- `gt cleanup --gc --convoys`. -/
def flagsGcOnlyConvoys : Flags := ⟨false, true, false, true⟩

/-- `gt cleanup --gc`. -/
def flagsGcApply : Flags := ⟨false, true, false, false⟩

/-- A world with one rig holding one done polecat whose removal fails. -/
def worldC1 : World where
  findWorkspace := .ok "/town"
  loadRigsConfig := fun _ => .ok emptyRigsConfig
  discoverRigs := fun _ => .ok [⟨"alpha", "/town/alpha"⟩]
  env :=
    { envOkEmpty with
      listPolecats := fun _ => .ok [⟨"nux", .done⟩]
      removePolecat := fun _ _ _ => .error "worktree locked" }

/-- A world with a done polecat, an open convoy with one closed issue, and
all collaborators succeeding. -/
def worldC2a : World where
  findWorkspace := .ok "/town"
  loadRigsConfig := fun _ => .ok emptyRigsConfig
  discoverRigs := fun _ => .ok [⟨"alpha", "/town/alpha"⟩]
  env :=
    { envOkEmpty with
      listPolecats := fun _ => .ok [⟨"nux", .done⟩]
      listOpenConvoys := .ok [⟨"c1", "T1"⟩]
      trackedIssues := fun _ => [⟨"closed"⟩] }

/-- Same read-only collaborators as `worldC2a` but every mutating
collaborator fails. -/
def worldC2b : World :=
  { worldC2a with
    env :=
      { worldC2a.env with
        stopSession := fun _ _ _ => .error "stop refused"
        removePolecat := fun _ _ _ => .error "remove refused"
        bdCloseBead := fun _ _ => .error "bd refused"
        closeConvoy := fun _ => .error "close refused"
        collectStaleBranches := fun _ => .error "gc refused" } }

/-- A store with one completable convoy, one blocked convoy, and one convoy
tracking zero issues. -/
def envC4 : Env :=
  { envOkEmpty with
    listOpenConvoys := .ok [⟨"c1", "T1"⟩, ⟨"c2", "T2"⟩, ⟨"c3", "T3"⟩]
    trackedIssues := fun i =>
      if i == "c1" then [⟨"closed"⟩, ⟨"tombstone"⟩]
      else if i == "c2" then [⟨"closed"⟩, ⟨"open"⟩]
      else [] }

/-- The completable convoy of `envC4`. -/
def convoyC4 : Convoy := ⟨"c1", "T1"⟩

/-- A registry with one done and one still-working polecat, the latter with
a running session. -/
def envC5 : Env :=
  { envOkEmpty with
    listPolecats := fun _ => .ok [⟨"a", .done⟩, ⟨"b", .other "working"⟩]
    isRunning := fun _ _ => .ok true }

/-- The rig of `envC5`. -/
def rigC5 : Rig := ⟨"alpha", "/town/alpha"⟩

/-- A world with one rig and a branch collector that would delete two
branches. -/
def worldC7 : World where
  findWorkspace := .ok "/town"
  loadRigsConfig := fun _ => .ok emptyRigsConfig
  discoverRigs := fun _ => .ok [⟨"alpha", "/town/alpha"⟩]
  env := { envOkEmpty with collectStaleBranches := fun _ => .ok 2 }

/-- A world whose rigs config is unreadable while everything else succeeds. -/
def worldC8 : World where
  findWorkspace := .ok "/town"
  loadRigsConfig := fun _ => .error "parse error"
  discoverRigs := fun _ => .ok []
  env := envOkEmpty

/-- A world whose workspace resolution fails. -/
def worldC8abort : World :=
  { worldC8 with findWorkspace := .error "no town root" }

/-- `worldC8` with the rigs-config fallback applied explicitly. -/
def worldC8empty : World :=
  { worldC8 with loadRigsConfig := fun _ => .ok emptyRigsConfig }

/-- An external state whose session-running query always fails. -/
def envC10 : Env :=
  { envOkEmpty with isRunning := fun _ _ => .error "tmux unavailable" }

/-- The rig of `envC10`. -/
def rigC10 : Rig := ⟨"alpha", "/town/alpha"⟩

/-- A done polecat processed against `envC10`. -/
def polecatC10 : Polecat := ⟨"nux", .done⟩

/-! ## Lemmas about the Work-Unit Reaper -/

theorem reapOne_removeEvents (env : Env) (r : Rig) (p : Polecat) :
    removeEvents (reapOne env r p).2.2 = [Event.remove r.name p.name true] := by
  unfold reapOne
  cases h : env.removePolecat r p.name true <;>
    by_cases hr : isRunningCall env r p.name <;>
      simp [removeEvents, Event.isRemove, hr, h]

theorem reapOne_failures (env : Env) (r : Rig) (p : Polecat) :
    (reapOne env r p).2.1 =
      (match env.removePolecat r p.name true with
       | .error e => [(⟨r.name, p.name, e⟩ : UnitFailure)]
       | .ok _ => []) := by
  unfold reapOne
  cases h : env.removePolecat r p.name true <;> simp [h]

theorem reapOne_nuked (env : Env) (r : Rig) (p : Polecat) :
    (reapOne env r p).1 =
      (if (env.removePolecat r p.name true).toBool then 1 else 0) := by
  unfold reapOne
  cases h : env.removePolecat r p.name true <;> simp [h, Except.toBool]

theorem reapOne_rigUnit (env : Env) (r : Rig) (p : Polecat) :
    ∀ e ∈ (reapOne env r p).2.2, e.rigUnit = some (r.name, p.name) := by
  unfold reapOne
  cases h : env.removePolecat r p.name true <;>
    by_cases hr : isRunningCall env r p.name <;>
      simp [hr, h, Event.rigUnit]

theorem reapUnits_removeEvents (env : Env) (r : Rig) (l : List Polecat) :
    removeEvents (reapUnits env r l).2.2 =
      l.map (fun p => Event.remove r.name p.name true) := by
  induction l with
  | nil => simp [reapUnits, removeEvents]
  | cons p rest ih =>
    have h1 := reapOne_removeEvents env r p
    simp only [removeEvents] at h1 ih ⊢
    rw [show (reapUnits env r (p :: rest)).2.2
        = (reapOne env r p).2.2 ++ (reapUnits env r rest).2.2 from rfl,
      List.filter_append, h1, ih]
    simp

theorem reapUnits_failures (env : Env) (r : Rig) (l : List Polecat) :
    (reapUnits env r l).2.1 =
      l.filterMap (fun p =>
        match env.removePolecat r p.name true with
        | .error e => some (⟨r.name, p.name, e⟩ : UnitFailure)
        | .ok _ => none) := by
  induction l with
  | nil => simp [reapUnits]
  | cons p rest ih =>
    rw [show (reapUnits env r (p :: rest)).2.1
        = (reapOne env r p).2.1 ++ (reapUnits env r rest).2.1 from rfl]
    rw [reapOne_failures, ih, List.filterMap_cons]
    cases h : env.removePolecat r p.name true <;> simp [h]

theorem reapUnits_nuked (env : Env) (r : Rig) (l : List Polecat) :
    (reapUnits env r l).1 =
      l.countP (fun p => (env.removePolecat r p.name true).toBool) := by
  induction l with
  | nil => simp [reapUnits]
  | cons p rest ih =>
    rw [show (reapUnits env r (p :: rest)).1
        = (reapOne env r p).1 + (reapUnits env r rest).1 from rfl]
    rw [reapOne_nuked, ih, List.countP_cons]
    cases h : (env.removePolecat r p.name true).toBool <;> simp [h, Nat.add_comm]

theorem reapUnits_rigUnit (env : Env) (r : Rig) (l : List Polecat) :
    ∀ e ∈ (reapUnits env r l).2.2, ∃ p ∈ l, e.rigUnit = some (r.name, p.name) := by
  induction l with
  | nil => simp [reapUnits]
  | cons p rest ih =>
    intro e he
    rw [show (reapUnits env r (p :: rest)).2.2
        = (reapOne env r p).2.2 ++ (reapUnits env r rest).2.2 from rfl] at he
    rcases List.mem_append.mp he with h | h
    · exact ⟨p, List.mem_cons_self p rest, reapOne_rigUnit env r p e h⟩
    · rcases ih e h with ⟨q, hq, hrq⟩
      exact ⟨q, List.mem_cons_of_mem p hq, hrq⟩

theorem reapRigs_removeEvents (env : Env) (rigs : List Rig) :
    removeEvents (reapRigs env false rigs).2.2.2 =
      (doneUnits env rigs).map (fun rp => Event.remove rp.1.name rp.2.name true) := by
  induction rigs with
  | nil => simp [reapRigs, removeEvents, doneUnits]
  | cons r rest ih =>
    rw [show (reapRigs env false (r :: rest)).2.2.2
        = (reapRig env false r).2.2.2 ++ (reapRigs env false rest).2.2.2 from rfl]
    simp only [removeEvents, List.filter_append] at ih ⊢
    rw [ih, show doneUnits env (r :: rest)
        = (match env.listPolecats r with
           | .error _ => []
           | .ok ps => (ps.filter (fun p => p.state == PolecatState.done)).map
              (fun p => (r, p))) ++ doneUnits env rest from rfl,
      List.map_append]
    cases h : env.listPolecats r with
    | error e => simp [reapRig, h]
    | ok ps =>
      have h1 := reapUnits_removeEvents env r
        (ps.filter (fun p => p.state == PolecatState.done))
      simp only [removeEvents] at h1
      simp [reapRig, h, h1, List.map_map, Function.comp]

theorem reapRigs_failures (env : Env) (rigs : List Rig) :
    (reapRigs env false rigs).2.2.1 =
      (doneUnits env rigs).filterMap (fun rp =>
        match env.removePolecat rp.1 rp.2.name true with
        | .error e => some (⟨rp.1.name, rp.2.name, e⟩ : UnitFailure)
        | .ok _ => none) := by
  induction rigs with
  | nil => simp [reapRigs, doneUnits]
  | cons r rest ih =>
    rw [show (reapRigs env false (r :: rest)).2.2.1
        = (reapRig env false r).2.2.1 ++ (reapRigs env false rest).2.2.1 from rfl,
      ih, show doneUnits env (r :: rest)
        = (match env.listPolecats r with
           | .error _ => []
           | .ok ps => (ps.filter (fun p => p.state == PolecatState.done)).map
              (fun p => (r, p))) ++ doneUnits env rest from rfl,
      List.filterMap_append]
    cases h : env.listPolecats r with
    | error e => simp [reapRig, h]
    | ok ps =>
      rw [show (reapRig env false r).2.2.1
          = (reapUnits env r (ps.filter (fun p => p.state == PolecatState.done))).2.1
          by simp [reapRig, h]]
      rw [reapUnits_failures, List.filterMap_map]
      rfl

theorem reapRigs_nuked (env : Env) (rigs : List Rig) :
    (reapRigs env false rigs).1 =
      (doneUnits env rigs).countP
        (fun rp => (env.removePolecat rp.1 rp.2.name true).toBool) := by
  induction rigs with
  | nil => simp [reapRigs, doneUnits]
  | cons r rest ih =>
    rw [show (reapRigs env false (r :: rest)).1
        = (reapRig env false r).1 + (reapRigs env false rest).1 from rfl,
      ih, show doneUnits env (r :: rest)
        = (match env.listPolecats r with
           | .error _ => []
           | .ok ps => (ps.filter (fun p => p.state == PolecatState.done)).map
              (fun p => (r, p))) ++ doneUnits env rest from rfl,
      List.countP_append]
    cases h : env.listPolecats r with
    | error e => simp [reapRig, h]
    | ok ps =>
      rw [show (reapRig env false r).1
          = (reapUnits env r (ps.filter (fun p => p.state == PolecatState.done))).1
          by simp [reapRig, h]]
      rw [reapUnits_nuked, List.countP_map]
      rfl

theorem reapRigs_rigUnit (env : Env) (d : Bool) (rigs : List Rig) :
    ∀ e ∈ (reapRigs env d rigs).2.2.2,
      ∃ rp ∈ doneUnits env rigs, e.rigUnit = some (rp.1.name, rp.2.name) := by
  induction rigs with
  | nil => simp [reapRigs]
  | cons r rest ih =>
    intro e he
    rw [show (reapRigs env d (r :: rest)).2.2.2
        = (reapRig env d r).2.2.2 ++ (reapRigs env d rest).2.2.2 from rfl] at he
    have hsplit : doneUnits env (r :: rest)
        = (match env.listPolecats r with
           | .error _ => []
           | .ok ps => (ps.filter (fun p => p.state == PolecatState.done)).map
              (fun p => (r, p))) ++ doneUnits env rest := rfl
    rcases List.mem_append.mp he with h | h
    · cases hl : env.listPolecats r with
      | error e2 => simp [reapRig, hl] at h
      | ok ps =>
        cases hd : d with
        | true => subst hd; rw [reapRig, hl] at h; simp at h
        | false =>
          subst hd
          rw [show (reapRig env false r).2.2.2
              = (reapUnits env r
                  (ps.filter (fun p => p.state == PolecatState.done))).2.2
              by simp [reapRig, hl]] at h
          rcases reapUnits_rigUnit env r _ e h with ⟨p, hp, hrp⟩
          refine ⟨(r, p), ?_, hrp⟩
          rw [hsplit]
          exact List.mem_append_left _ (by rw [hl]; exact List.mem_map_of_mem _ hp)
    · rcases ih e h with ⟨rp, hrp, hru⟩
      exact ⟨rp, by rw [hsplit]; exact List.mem_append_right _ hrp, hru⟩

theorem reapRigs_dry_trace (env : Env) (rigs : List Rig) :
    (reapRigs env true rigs).2.2.2 = [] := by
  induction rigs with
  | nil => rfl
  | cons r rest ih =>
    rw [show (reapRigs env true (r :: rest)).2.2.2
        = (reapRig env true r).2.2.2 ++ (reapRigs env true rest).2.2.2 from rfl, ih]
    cases h : env.listPolecats r <;> simp [reapRig, h]

/-! ## Lemmas about the Grouped-Work Closer and Branch Collector -/

theorem allClosedLoop_iff (l : List TrackedIssue) :
    allClosedLoop l = true ↔
      ∀ t ∈ l, t.status = "closed" ∨ t.status = "tombstone" := by
  induction l with
  | nil => simp [allClosedLoop]
  | cons t rest ih =>
    by_cases h1 : t.status = "closed"
    · simp [allClosedLoop, h1, ih]
    · by_cases h2 : t.status = "tombstone" <;>
        simp [allClosedLoop, h1, h2, ih]

theorem convoyComplete_iff (env : Env) (cv : Convoy) :
    convoyComplete env cv = true ↔
      (env.trackedIssues cv.id ≠ [] ∧
        ∀ t ∈ env.trackedIssues cv.id,
          t.status = "closed" ∨ t.status = "tombstone") := by
  unfold convoyComplete
  cases h : env.trackedIssues cv.id with
  | nil => simp [h]
  | cons t rest => simp [h, allClosedLoop_iff, List.length_eq_zero]

theorem convoy_events_dry (env : Env) :
    (cleanupCompletedConvoys env true).2.2 = [] := by
  unfold cleanupCompletedConvoys
  cases h : previewCompletedConvoys env <;> simp [h]

theorem checkAndClose_events (env : Env) (cs : List Convoy)
    (h : env.listOpenConvoys = .ok cs) :
    (checkAndCloseCompletedConvoys env).2 =
      (cs.filter (fun cv => convoyComplete env cv)).map
        (fun cv => Event.closeConvoy cv.id) := by
  unfold checkAndCloseCompletedConvoys
  rw [h]

theorem convoy_events_shape (env : Env) (d : Bool) :
    ∀ e ∈ (cleanupCompletedConvoys env d).2.2, ∃ i, e = Event.closeConvoy i := by
  cases d with
  | true => rw [convoy_events_dry]; simp
  | false =>
    intro e he
    have hrw : (cleanupCompletedConvoys env false).2.2
        = (checkAndCloseCompletedConvoys env).2 := by
      unfold cleanupCompletedConvoys
      cases hc : checkAndCloseCompletedConvoys env with
      | mk fst snd => cases fst <;> simp [hc]
    cases h : env.listOpenConvoys with
    | error e2 =>
      rw [hrw, show (checkAndCloseCompletedConvoys env).2 = [] by
        unfold checkAndCloseCompletedConvoys; rw [h]] at he
      simp at he
    | ok cs =>
      rw [hrw, checkAndClose_events env cs h] at he
      rcases List.mem_map.mp he with ⟨cv, _, hcv⟩
      exact ⟨cv.id, hcv.symm⟩

theorem gcRigs_dry (env : Env) (rigs : List Rig) :
    gcRigs env true rigs = (0, []) := by
  induction rigs with
  | nil => rfl
  | cons r rest ih =>
    rw [show gcRigs env true (r :: rest)
        = ((gcRig env true r).1 + (gcRigs env true rest).1,
           (gcRig env true r).2 ++ (gcRigs env true rest).2) from rfl, ih]
    simp [gcRig]

theorem gcRigs_apply_trace (env : Env) (rigs : List Rig) :
    (gcRigs env false rigs).2 = rigs.map (fun r => Event.collectStale r.name) := by
  induction rigs with
  | nil => rfl
  | cons r rest ih =>
    rw [show (gcRigs env false (r :: rest)).2
        = (gcRig env false r).2 ++ (gcRigs env false rest).2 from rfl, ih]
    cases h : env.collectStaleBranches r <;> simp [gcRig, h]

theorem rigUnit_some_not_collect (e : Event) (x : String × String)
    (h : e.rigUnit = some x) : e.isCollect = false := by
  cases e <;> simp [Event.rigUnit, Event.isCollect] at h ⊢

theorem collectEvents_eq_nil (tr : List Event)
    (h : ∀ e ∈ tr, e.isCollect = false) : collectEvents tr = [] := by
  induction tr with
  | nil => rfl
  | cons e rest ih =>
    have he := h e (List.mem_cons_self e rest)
    simp only [collectEvents, List.filter_cons, he]
    exact ih (fun e2 h2 => h e2 (List.mem_cons_of_mem e h2))

theorem collectEvents_reap (env : Env) (d : Bool) (rigs : List Rig) :
    collectEvents (cleanupDonePolecats env rigs d).trace = [] := by
  apply collectEvents_eq_nil
  intro e he
  rcases reapRigs_rigUnit env d rigs e he with ⟨rp, _, hru⟩
  exact rigUnit_some_not_collect e _ hru

theorem collectEvents_convoy (env : Env) (d : Bool) :
    collectEvents (cleanupCompletedConvoys env d).2.2 = [] := by
  apply collectEvents_eq_nil
  intro e he
  rcases convoy_events_shape env d e he with ⟨i, hi⟩
  subst hi
  rfl

theorem collectEvents_gc_apply (env : Env) (rigs : List Rig) :
    collectEvents (cleanupStaleBranches env rigs false).2.2 =
      rigs.map (fun r => Event.collectStale r.name) := by
  rw [show (cleanupStaleBranches env rigs false).2.2
      = (gcRigs env false rigs).2 from rfl, gcRigs_apply_trace]
  induction rigs with
  | nil => rfl
  | cons r rest ih =>
    simp only [List.map_cons, collectEvents, List.filter_cons] at ih ⊢
    rw [show (Event.collectStale r.name).isCollect = true from rfl]
    simpa using ih

/-! ## Lemmas about the driver -/

theorem runCleanup_cases_eq (w : World) (f : Flags) :
    runCleanup w f =
      match w.findWorkspace with
      | .error e => .error ("not in a Gas Town workspace: " ++ e)
      | .ok town =>
        match w.discoverRigs
            (match w.loadRigsConfig town with
             | .error _ => emptyRigsConfig
             | .ok c => c) with
        | .error e => .error ("discovering rigs: " ++ e)
        | .ok rigs => .ok (runPasses w.env f rigs) := rfl

theorem runCleanup_eq_ok (w : World) (f : Flags) (town : String) (rigs : List Rig)
    (h1 : w.findWorkspace = .ok town)
    (h2 : w.discoverRigs (effectiveRigsConfig w) = .ok rigs) :
    runCleanup w f = .ok (runPasses w.env f rigs) := by
  cases hc : w.loadRigsConfig town with
  | error e =>
    have hcfg : effectiveRigsConfig w = emptyRigsConfig := by
      simp only [effectiveRigsConfig, h1, hc]
    rw [hcfg] at h2
    simp [runCleanup, h1, hc, h2]
  | ok c =>
    have hcfg : effectiveRigsConfig w = c := by
      simp only [effectiveRigsConfig, h1, hc]
    rw [hcfg] at h2
    simp [runCleanup, h1, hc, h2]

theorem runCleanup_isFailure (w : World) (f : Flags) :
    isFailure (runCleanup w f) =
      (isFailure w.findWorkspace ||
        isFailure (w.discoverRigs (effectiveRigsConfig w))) := by
  cases h1 : w.findWorkspace with
  | error e => simp [runCleanup, h1, isFailure]
  | ok town =>
    unfold effectiveRigsConfig
    rw [h1]
    cases hc : w.loadRigsConfig town with
    | error e =>
      cases h2 : w.discoverRigs emptyRigsConfig <;>
        simp [runCleanup, h1, hc, h2, isFailure]
    | ok c =>
      cases h2 : w.discoverRigs c <;>
        simp [runCleanup, h1, hc, h2, isFailure]

theorem runPasses_dry_trace (env : Env) (f : Flags) (rigs : List Rig)
    (hf : f.dryRun = true) : (runPasses env f rigs).trace = [] := by
  unfold runPasses
  rw [hf]
  have hp : (cleanupDonePolecats env rigs true).trace = [] :=
    reapRigs_dry_trace env rigs
  have hg : (cleanupStaleBranches env rigs true).2.2 = [] := by
    rw [show (cleanupStaleBranches env rigs true).2.2
        = (gcRigs env true rigs).2 from rfl, gcRigs_dry]
  by_cases h1 : (cleanBoth f || f.onlyPolecats) = true <;>
    by_cases h2 : (cleanBoth f || f.onlyConvoys) = true <;>
      by_cases h3 : f.gc = true <;>
        simp [h1, h2, h3, hp, hg, convoy_events_dry]

theorem runTrace_dry (w : World) (f : Flags) (hf : f.dryRun = true) :
    runTrace (runCleanup w f) = [] := by
  cases h1 : w.findWorkspace with
  | error e => simp [runCleanup, h1, runTrace]
  | ok town =>
    cases hc : w.loadRigsConfig town with
    | error e =>
      cases h2 : w.discoverRigs emptyRigsConfig with
      | error e2 => simp [runCleanup, h1, hc, h2, runTrace]
      | ok rigs =>
        simp [runCleanup, h1, hc, h2, runTrace, runPasses_dry_trace w.env f rigs hf]
    | ok c =>
      cases h2 : w.discoverRigs c with
      | error e2 => simp [runCleanup, h1, hc, h2, runTrace]
      | ok rigs =>
        simp [runCleanup, h1, hc, h2, runTrace, runPasses_dry_trace w.env f rigs hf]

theorem reapRig_dry_congr (env1 env2 : Env) (r : Rig)
    (h : env1.listPolecats = env2.listPolecats) :
    reapRig env1 true r = reapRig env2 true r := by
  unfold reapRig
  rw [h]
  cases env2.listPolecats r <;> simp

theorem reapRigs_dry_congr (env1 env2 : Env) (rigs : List Rig)
    (h : env1.listPolecats = env2.listPolecats) :
    reapRigs env1 true rigs = reapRigs env2 true rigs := by
  induction rigs with
  | nil => rfl
  | cons r rest ih =>
    rw [show reapRigs env1 true (r :: rest)
        = ((reapRig env1 true r).1 + (reapRigs env1 true rest).1,
           (reapRig env1 true r).2.1 ++ (reapRigs env1 true rest).2.1,
           (reapRig env1 true r).2.2.1 ++ (reapRigs env1 true rest).2.2.1,
           (reapRig env1 true r).2.2.2 ++ (reapRigs env1 true rest).2.2.2) from rfl,
      show reapRigs env2 true (r :: rest)
        = ((reapRig env2 true r).1 + (reapRigs env2 true rest).1,
           (reapRig env2 true r).2.1 ++ (reapRigs env2 true rest).2.1,
           (reapRig env2 true r).2.2.1 ++ (reapRigs env2 true rest).2.2.1,
           (reapRig env2 true r).2.2.2 ++ (reapRigs env2 true rest).2.2.2) from rfl,
      reapRig_dry_congr env1 env2 r h, ih]

theorem convoyComplete_congr (env1 env2 : Env) (cv : Convoy)
    (h : env1.trackedIssues = env2.trackedIssues) :
    convoyComplete env1 cv = convoyComplete env2 cv := by
  unfold convoyComplete
  rw [h]

theorem preview_congr (env1 env2 : Env)
    (h1 : env1.listOpenConvoys = env2.listOpenConvoys)
    (h2 : env1.trackedIssues = env2.trackedIssues) :
    previewCompletedConvoys env1 = previewCompletedConvoys env2 := by
  have hfil : ∀ cs : List Convoy,
      cs.filter (fun cv => convoyComplete env1 cv)
        = cs.filter (fun cv => convoyComplete env2 cv) := by
    intro cs
    induction cs with
    | nil => rfl
    | cons cv rest ih =>
      rw [List.filter_cons, List.filter_cons,
        convoyComplete_congr env1 env2 cv h2, ih]
  unfold previewCompletedConvoys
  rw [h1]
  cases env2.listOpenConvoys with
  | error e => rfl
  | ok cs => simp [hfil cs]

theorem runPasses_dry_congr (env1 env2 : Env) (f : Flags) (rigs : List Rig)
    (hf : f.dryRun = true)
    (h1 : env1.listPolecats = env2.listPolecats)
    (h2 : env1.listOpenConvoys = env2.listOpenConvoys)
    (h3 : env1.trackedIssues = env2.trackedIssues) :
    runPasses env1 f rigs = runPasses env2 f rigs := by
  unfold runPasses
  rw [hf]
  have hreap : cleanupDonePolecats env1 rigs true
      = cleanupDonePolecats env2 rigs true := by
    unfold cleanupDonePolecats
    rw [reapRigs_dry_congr env1 env2 rigs h1]
  have hconv : cleanupCompletedConvoys env1 true
      = cleanupCompletedConvoys env2 true := by
    unfold cleanupCompletedConvoys
    rw [preview_congr env1 env2 h2 h3]
    simp
  have hgc : cleanupStaleBranches env1 rigs true
      = cleanupStaleBranches env2 rigs true := by
    unfold cleanupStaleBranches
    rw [gcRigs_dry, gcRigs_dry]
  rw [hreap, hconv, hgc]

theorem runCleanup_dry_congr (w1 w2 : World) (f : Flags)
    (hf : f.dryRun = true)
    (ha : w1.findWorkspace = w2.findWorkspace)
    (hb : w1.loadRigsConfig = w2.loadRigsConfig)
    (hc : w1.discoverRigs = w2.discoverRigs)
    (h1 : w1.env.listPolecats = w2.env.listPolecats)
    (h2 : w1.env.listOpenConvoys = w2.env.listOpenConvoys)
    (h3 : w1.env.trackedIssues = w2.env.trackedIssues) :
    runCleanup w1 f = runCleanup w2 f := by
  rw [runCleanup_cases_eq w1 f, runCleanup_cases_eq w2 f, ha, hb, hc]
  cases hw : w2.findWorkspace with
  | error e => rfl
  | ok town =>
    dsimp only
    cases hl : w2.loadRigsConfig town with
    | error e =>
      dsimp only
      cases hd : w2.discoverRigs emptyRigsConfig with
      | error e2 => rfl
      | ok rigs =>
        dsimp only
        rw [runPasses_dry_congr w1.env w2.env f rigs hf h1 h2 h3]
    | ok c =>
      dsimp only
      cases hd : w2.discoverRigs c with
      | error e2 => rfl
      | ok rigs =>
        dsimp only
        rw [runPasses_dry_congr w1.env w2.env f rigs hf h1 h2 h3]

theorem cleanupDonePolecats_err_none (env : Env) (rigs : List Rig) (d : Bool) :
    (cleanupDonePolecats env rigs d).err = none := rfl

theorem cleanupStaleBranches_err_none (env : Env) (rigs : List Rig) (d : Bool) :
    (cleanupStaleBranches env rigs d).2.1 = none := rfl

theorem gcTrace_dry (env : Env) (rigs : List Rig) :
    (cleanupStaleBranches env rigs true).2.2 = [] := by
  rw [show (cleanupStaleBranches env rigs true).2.2
      = (gcRigs env true rigs).2 from rfl, gcRigs_dry]

theorem collectEvents_append (a b : List Event) :
    collectEvents (a ++ b) = collectEvents a ++ collectEvents b :=
  List.filter_append a b

theorem doneUnits_congr (env1 env2 : Env) (rigs : List Rig)
    (h : env1.listPolecats = env2.listPolecats) :
    doneUnits env1 rigs = doneUnits env2 rigs := by
  induction rigs with
  | nil => rfl
  | cons r rest ih =>
    rw [show doneUnits env1 (r :: rest)
        = (match env1.listPolecats r with
           | .error _ => []
           | .ok ps => (ps.filter (fun p => p.state == PolecatState.done)).map
              (fun p => (r, p))) ++ doneUnits env1 rest from rfl,
      show doneUnits env2 (r :: rest)
        = (match env2.listPolecats r with
           | .error _ => []
           | .ok ps => (ps.filter (fun p => p.state == PolecatState.done)).map
              (fun p => (r, p))) ++ doneUnits env2 rest from rfl,
      h, ih]

theorem collectEvents_nil : collectEvents [] = [] := rfl

theorem runPasses_warnings_no_polecat (env : Env) (f : Flags) (rigs : List Rig) :
    ((runPasses env f rigs).warnings).all (fun wn => !wn.isPolecatPass) = true := by
  unfold runPasses
  by_cases h1 : (cleanBoth f || f.onlyPolecats) = true <;>
    by_cases h2 : (cleanBoth f || f.onlyConvoys) = true <;>
      by_cases h3 : f.gc = true <;>
        cases hcv : (cleanupCompletedConvoys env f.dryRun).2.1 <;>
          simp [h1, h2, h3, hcv, DriverWarning.isPolecatPass,
            cleanupDonePolecats_err_none, cleanupStaleBranches_err_none]

/-! ## The claims -/

/-- Claim C1, counterexample: in a world whose single done polecat fails to
be removed, the run still returns a nil error while the pass reports one
unit failure, so "the run reports failure iff `unitsFailed > 0`" is false
on the code. -/
theorem c1_counterexample :
    ¬ ((isFailure (runCleanup worldC1 flagsOff) = true) ↔
        0 < runUnitsFailed (runCleanup worldC1 flagsOff)) := by decide

/-- Claim C1 as amended: the overall run returns a non-nil error iff
workspace resolution or rig discovery fails; the outcome of the passes —
in particular work-unit removal failures — never affects the run's error,
as the error is unchanged under any substitution of the pass
collaborators. -/
theorem c1_run_failure_characterization :
    (∀ w f, isFailure (runCleanup w f) =
      (isFailure w.findWorkspace ||
        isFailure (w.discoverRigs (effectiveRigsConfig w)))) ∧
    (∀ w f env2, isFailure (runCleanup { w with env := env2 } f)
      = isFailure (runCleanup w f)) := by
  refine ⟨runCleanup_isFailure, fun w f env2 => ?_⟩
  rw [runCleanup_isFailure, runCleanup_isFailure]
  rfl

/-- Claim C3: in apply mode the removal attempts of a reaper pass are
exactly one forced removal per done work unit of every successfully listed
rig, in order — independently of the session-query and session-stop
collaborators, so a stop failure never prevents or duplicates a removal. -/
theorem c3_one_forced_removal_per_done_unit :
    (∀ env rigs, removeEvents (cleanupDonePolecats env rigs false).trace =
      (doneUnits env rigs).map
        (fun rp => Event.remove rp.1.name rp.2.name true)) ∧
    (∀ env rigs run2 stop2,
      removeEvents (cleanupDonePolecats
          { env with isRunning := run2, stopSession := stop2 } rigs false).trace
        = removeEvents (cleanupDonePolecats env rigs false).trace) := by
  constructor
  · intro env rigs
    exact reapRigs_removeEvents env rigs
  · intro env rigs run2 stop2
    have hL : removeEvents (cleanupDonePolecats
          { env with isRunning := run2, stopSession := stop2 } rigs false).trace
        = (doneUnits { env with isRunning := run2, stopSession := stop2 } rigs).map
          (fun rp => Event.remove rp.1.name rp.2.name true) :=
      reapRigs_removeEvents _ rigs
    have hR : removeEvents (cleanupDonePolecats env rigs false).trace
        = (doneUnits env rigs).map
          (fun rp => Event.remove rp.1.name rp.2.name true) :=
      reapRigs_removeEvents env rigs
    rw [hL, hR,
      doneUnits_congr { env with isRunning := run2, stopSession := stop2 } env rigs rfl]

/-- Claim C6: in apply mode a reaper pass reports exactly one failure per
done unit whose forced removal fails (keeping rig and unit identity and the
error), and counts as nuked exactly the done units whose forced removal
succeeds — over all rigs, so one failure never blocks later units or
rigs. -/
theorem c6_failure_isolation :
    ∀ env rigs,
      (cleanupDonePolecats env rigs false).removeFailures =
        (doneUnits env rigs).filterMap (fun rp =>
          match env.removePolecat rp.1 rp.2.name true with
          | .error e => some (⟨rp.1.name, rp.2.name, e⟩ : UnitFailure)
          | .ok _ => none) ∧
      (cleanupDonePolecats env rigs false).nuked =
        (doneUnits env rigs).countP
          (fun rp => (env.removePolecat rp.1 rp.2.name true).toBool) := by
  intro env rigs
  exact ⟨reapRigs_failures env rigs, reapRigs_nuked env rigs⟩

/-- Claim C9: the work-unit reaper never propagates an error — its returned
error is always nil — so the driver's "polecat cleanup had errors" warning
is never emitted on any run. -/
theorem c9_reaper_never_errors :
    (∀ env rigs d, (cleanupDonePolecats env rigs d).err = none) ∧
    (∀ w f, ((runWarnings (runCleanup w f)).all
      (fun wn => !wn.isPolecatPass)) = true) := by
  refine ⟨fun env rigs d => rfl, fun w f => ?_⟩
  cases h1 : w.findWorkspace with
  | error e => simp [runCleanup, h1, runWarnings]
  | ok town =>
    cases hc : w.loadRigsConfig town with
    | error e =>
      cases h2 : w.discoverRigs emptyRigsConfig with
      | error e2 => simp [runCleanup, h1, hc, h2, runWarnings]
      | ok rigs =>
        simp [runCleanup, h1, hc, h2, runWarnings,
          runPasses_warnings_no_polecat w.env f rigs]
    | ok c =>
      cases h2 : w.discoverRigs c with
      | error e2 => simp [runCleanup, h1, hc, h2, runWarnings]
      | ok rigs =>
        simp [runCleanup, h1, hc, h2, runWarnings,
          runPasses_warnings_no_polecat w.env f rigs]

/-- Claim C10: when the session-running query fails for a done unit in
apply mode, the error is discarded and the unit is treated as not running:
no stop call is made, and exactly the one forced removal attempt still
occurs. -/
theorem c10_isrunning_failure_discarded :
    ∀ env r p e, env.isRunning r p.name = .error e →
      noStopEvents (reapOne env r p).2.2 = true ∧
      removeEvents (reapOne env r p).2.2 = [Event.remove r.name p.name true] := by
  intro env r p e h
  have hrun : isRunningCall env r p.name = false := by
    unfold isRunningCall
    rw [h]
  refine ⟨?_, reapOne_removeEvents env r p⟩
  unfold reapOne
  rw [hrun]
  cases h2 : env.removePolecat r p.name true <;>
    simp [noStopEvents, Event.isStop, h2]

/-- Witness for C10: with a session registry whose query always fails, the
done polecat `nux` is removed exactly once and never stopped. -/
theorem c10_isrunning_failure_discarded_witness :
    noStopEvents (reapOne envC10 rigC10 polecatC10).2.2 = true ∧
    removeEvents (reapOne envC10 rigC10 polecatC10).2.2 =
      [Event.remove "alpha" "nux" true] :=
  c10_isrunning_failure_discarded envC10 rigC10 polecatC10 "tmux unavailable" rfl

/-- Claim C2: a dry run invokes no mutating collaborator operation
(no stop, forced removal, bead close, convoy close, or branch collection),
and its whole result is determined by the read-only collaborators alone —
so with external state unchanged, running it again yields identical
counts. -/
theorem c2_dry_run_read_only (w1 w2 : World) (f : Flags)
    (hf : f.dryRun = true)
    (ha : w1.findWorkspace = w2.findWorkspace)
    (hb : w1.loadRigsConfig = w2.loadRigsConfig)
    (hc : w1.discoverRigs = w2.discoverRigs)
    (h1 : w1.env.listPolecats = w2.env.listPolecats)
    (h2 : w1.env.listOpenConvoys = w2.env.listOpenConvoys)
    (h3 : w1.env.trackedIssues = w2.env.trackedIssues) :
    noMutatingEvents (runTrace (runCleanup w1 f)) = true ∧
      runCleanup w1 f = runCleanup w2 f := by
  constructor
  · rw [runTrace_dry w1 f hf]
    rfl
  · exact runCleanup_dry_congr w1 w2 f hf ha hb hc h1 h2 h3

/-- Witness for C2: a dry run over a world where every mutating collaborator
succeeds equals the dry run over the same world with every mutating
collaborator failing, and makes no mutating call. -/
theorem c2_dry_run_read_only_witness :
    noMutatingEvents (runTrace (runCleanup worldC2a flagsDryGc)) = true ∧
      runCleanup worldC2a flagsDryGc = runCleanup worldC2b flagsDryGc :=
  c2_dry_run_read_only worldC2a worldC2b flagsDryGc rfl rfl rfl rfl rfl rfl rfl

/-- Claim C4: a convoy is classified complete exactly when it tracks at
least one issue and every tracked issue's status is closed or tombstone;
the preview pass returns precisely the id/title of the complete convoys
among the listed open ones. -/
theorem c4_convoy_completeness :
    (∀ env cv, convoyComplete env cv = true ↔
      (env.trackedIssues cv.id ≠ [] ∧
        ∀ t ∈ env.trackedIssues cv.id,
          t.status = "closed" ∨ t.status = "tombstone")) ∧
    (∀ env cs, env.listOpenConvoys = .ok cs →
      previewCompletedConvoys env =
        .ok ((cs.filter (fun cv => convoyComplete env cv)).map
          (fun cv => (cv.id, cv.title)))) := by
  constructor
  · exact convoyComplete_iff
  · intro env cs h
    unfold previewCompletedConvoys
    rw [h]

/-- Witness for C4: convoy `c1` (issues closed and tombstone) is complete
and is the only record the preview reports, while `c2` (one open issue)
and `c3` (zero issues) are excluded. -/
theorem c4_convoy_completeness_witness :
    convoyComplete envC4 convoyC4 = true ∧
      previewCompletedConvoys envC4 = .ok [("c1", "T1")] := by
  constructor
  · exact (c4_convoy_completeness.1 envC4 convoyC4).mpr (by decide)
  · rw [c4_convoy_completeness.2 envC4 [⟨"c1", "T1"⟩, ⟨"c2", "T2"⟩, ⟨"c3", "T3"⟩] rfl]
    rfl

/-- Claim C5: a (rig, unit) pair that is not among the done units of the
listed registries is never session-queried, stopped, removed, or
bead-closed by a reaper pass, in either mode — so units with a state other
than done are never touched. -/
theorem c5_non_done_units_untouched :
    ∀ env rigs d rigName unitName,
      (rigName, unitName) ∉ doneUnitNames env rigs →
      touchesUnit (cleanupDonePolecats env rigs d).trace rigName unitName = false := by
  intro env rigs d rigName unitName hnot
  unfold touchesUnit
  rw [List.any_eq_false]
  intro e he
  rcases reapRigs_rigUnit env d rigs e he with ⟨rp, hrp, hru⟩
  simp only [hru, beq_iff_eq, Option.some.injEq]
  intro hEq
  exact hnot (hEq ▸ List.mem_map_of_mem _ hrp)

/-- Witness for C5: in a rig listing the done unit `a` and the working unit
`b`, an apply-mode pass never touches `b`. -/
theorem c5_non_done_units_untouched_witness :
    ("alpha", "b") ∉ doneUnitNames envC5 [rigC5] ∧
      touchesUnit (cleanupDonePolecats envC5 [rigC5] false).trace "alpha" "b"
        = false :=
  ⟨by decide, c5_non_done_units_untouched envC5 [rigC5] false "alpha" "b" (by decide)⟩

/-- Claim C7, counterexample: with the branch-collection flag set but only
the convoy pass selected (`--gc --convoys`), in apply mode with a rig
discovered, the branch collector is never invoked — so "the Branch
Collector pass runs whenever its flag is set" is false on the code. -/
theorem c7_counterexample :
    flagsGcOnlyConvoys.gc = true ∧
    flagsGcOnlyConvoys.dryRun = false ∧
    worldC7.discoverRigs emptyRigsConfig = .ok [⟨"alpha", "/town/alpha"⟩] ∧
    collectEvents (runTrace (runCleanup worldC7 flagsGcOnlyConvoys)) = [] :=
  ⟨rfl, rfl, rfl, rfl⟩

/-- Claim C7 as amended: the branch-collection calls of a run are exactly
one per discovered rig when the gc flag is set AND the polecat side is
enabled (`cleanBoth` or only-polecats) AND the run is not a dry run, and
none otherwise — so `--gc` together with `--convoys` runs no branch
collection. -/
theorem c7_branch_collection_gating (w : World) (f : Flags)
    (town : String) (rigs : List Rig)
    (h1 : w.findWorkspace = .ok town)
    (h2 : w.discoverRigs (effectiveRigsConfig w) = .ok rigs) :
    collectEvents (runTrace (runCleanup w f)) =
      (if f.gc && (cleanBoth f || f.onlyPolecats) && !f.dryRun
       then rigs.map (fun r => Event.collectStale r.name) else []) := by
  rw [runCleanup_eq_ok w f town rigs h1 h2,
    show runTrace (.ok (runPasses w.env f rigs))
      = (runPasses w.env f rigs).trace from rfl]
  unfold runPasses
  by_cases hA : (cleanBoth f || f.onlyPolecats) = true <;>
    by_cases hB : (cleanBoth f || f.onlyConvoys) = true <;>
      by_cases hC : f.gc = true <;>
        cases hD : f.dryRun <;>
          simp [hA, hB, hC, hD, collectEvents_append, collectEvents_reap,
            collectEvents_convoy, collectEvents_gc_apply, gcTrace_dry,
            collectEvents_nil]

/-- Witness for C7: a plain `gt cleanup --gc` run over one rig makes
exactly one branch-collection call. -/
theorem c7_branch_collection_gating_witness :
    collectEvents (runTrace (runCleanup worldC7 flagsGcApply)) =
      [Event.collectStale "alpha"] := by
  have h := c7_branch_collection_gating worldC7 flagsGcApply
    "/town" [⟨"alpha", "/town/alpha"⟩] rfl rfl
  simpa [flagsGcApply, cleanBoth] using h

/-- Claim C8, counterexample: a world whose rigs config is unreadable does
not make the run fail — the run proceeds on the empty-config fallback and
returns a nil error, so "if the configuration is unreadable the whole run
fails" is false on the code. -/
theorem c8_counterexample :
    worldC8.loadRigsConfig "/town" = .error "parse error" ∧
    isFailure (runCleanup worldC8 flagsOff) = false :=
  ⟨rfl, rfl⟩

/-- Claim C8 as amended: a run aborts before any pass starts (error result,
no collaborator calls) exactly when workspace resolution or rig discovery
fails; an unreadable rigs config alone never aborts — the run behaves as if
the config were empty; and these are the only run-aborting errors: a run
that fails had a failed workspace resolution or a failed rig discovery, so
no pass or collaborator error ever aborts the run. -/
theorem c8_only_workspace_and_discovery_abort :
    (∀ w f e, w.findWorkspace = .error e →
      isFailure (runCleanup w f) = true ∧ runTrace (runCleanup w f) = []) ∧
    (∀ w f e, w.discoverRigs (effectiveRigsConfig w) = .error e →
      isFailure (runCleanup w f) = true ∧ runTrace (runCleanup w f) = []) ∧
    (∀ w f town e, w.findWorkspace = .ok town →
      w.loadRigsConfig town = .error e →
      runCleanup w f =
        runCleanup { w with loadRigsConfig := fun _ => .ok emptyRigsConfig } f) ∧
    (∀ w f, isFailure (runCleanup w f) = true →
      isFailure w.findWorkspace = true ∨
        isFailure (w.discoverRigs (effectiveRigsConfig w)) = true) := by
  refine ⟨?_, ?_, ?_, ?_⟩
  · intro w f e h
    exact ⟨by simp [runCleanup, h, isFailure], by simp [runCleanup, h, runTrace]⟩
  · intro w f e h
    cases h1 : w.findWorkspace with
    | error e2 =>
      exact ⟨by simp [runCleanup, h1, isFailure], by simp [runCleanup, h1, runTrace]⟩
    | ok town =>
      cases hc : w.loadRigsConfig town with
      | error e2 =>
        have hcfg : effectiveRigsConfig w = emptyRigsConfig := by
          simp only [effectiveRigsConfig, h1, hc]
        rw [hcfg] at h
        exact ⟨by simp [runCleanup, h1, hc, h, isFailure],
          by simp [runCleanup, h1, hc, h, runTrace]⟩
      | ok c =>
        have hcfg : effectiveRigsConfig w = c := by
          simp only [effectiveRigsConfig, h1, hc]
        rw [hcfg] at h
        exact ⟨by simp [runCleanup, h1, hc, h, isFailure],
          by simp [runCleanup, h1, hc, h, runTrace]⟩
  · intro w f town e h1 h2
    rw [runCleanup_cases_eq w f, runCleanup_cases_eq _ f]
    simp only [h1, h2]
  · intro w f h
    rw [runCleanup_isFailure] at h
    exact Bool.or_eq_true_iff.mp h

/-- Witness for C8: a failed workspace resolution aborts the run, the
unreadable-config world runs identically to its empty-config variant, and
the aborted run's failure traces back to its workspace resolution. -/
theorem c8_only_workspace_and_discovery_abort_witness :
    isFailure (runCleanup worldC8abort flagsOff) = true ∧
      runCleanup worldC8 flagsOff = runCleanup worldC8empty flagsOff ∧
      (isFailure worldC8abort.findWorkspace = true ∨
        isFailure (worldC8abort.discoverRigs
          (effectiveRigsConfig worldC8abort)) = true) :=
  ⟨(c8_only_workspace_and_discovery_abort.1 worldC8abort flagsOff
      "no town root" rfl).1,
   c8_only_workspace_and_discovery_abort.2.2.1 worldC8 flagsOff
      "/town" "parse error" rfl rfl,
   c8_only_workspace_and_discovery_abort.2.2.2 worldC8abort flagsOff
      (c8_only_workspace_and_discovery_abort.1 worldC8abort flagsOff
        "no town root" rfl).1⟩

end Gastown
